import Mathlib

/-!
Shallow embedding of `constantdelay.go` from the breml/cron repository.

Modelling conventions:
* A Go `time.Duration` is an `Int` counting nanoseconds (Go stores it as an
  int64 nanosecond count).  The claims never drive duration arithmetic near
  the int64 bounds, so durations are modelled as unbounded integers; the one
  place where int64 saturation is observable through the public API,
  `time.Time.Sub`, is modelled with explicit clamping (`timeSub`).
* A Go `time.Time` is an `Int` counting nanoseconds since the Unix epoch
  (possibly negative).  Go stores seconds plus a normalized nanosecond field
  in `[0, 1e9)`; `Time.Nanosecond()` therefore equals the Euclidean residue
  of the total nanosecond count modulo `1e9`, which is what `nanosecond`
  computes (Lean's `%` on `Int` is Euclidean: the result is non-negative).
* `EveryWithInitial` and `EveryWithRandInitial` read `time.Now()` internally;
  the embedding passes that construction-time instant `t` explicitly.
  `EveryWithRandInitial` also draws `r.Int63()`, a uniform non-negative
  int64; the embedding passes that draw `r63 : Nat` explicitly.
* Go's `%` on int64 truncates toward zero.  Every `%` in the source is
  applied to a non-negative left operand (a clamped duration, a normalized
  nanosecond field, or an `Int63()` draw), and for a non-negative dividend
  Go's truncated remainder coincides with the Euclidean remainder for every
  non-zero divisor, so Lean's `%` is a faithful translation; zero divisors
  are modelled explicitly (see `EveryWithRandInitial`).
-/

namespace Cron

/-- Go `time.Second` as an int64 nanosecond count. -/
def nsPerSecond : Int := 1000000000

/-- Go `maxDuration` (largest int64), the saturation bound of `time.Time.Sub`. -/
def maxDuration : Int := 9223372036854775807

/-- Go `minDuration` (smallest int64), the saturation bound of `time.Time.Sub`. -/
def minDuration : Int := -9223372036854775808

/-- `ConstantDelaySchedule` from constantdelay.go: a recurring duty cycle with
`Delay` (a duration, in nanoseconds) and `StartTime` (an instant, in
nanoseconds since the Unix epoch) fixing when the first run executes. -/
structure ConstantDelaySchedule where
  Delay : Int
  StartTime : Int
deriving DecidableEq

/-- Go `time.Time.Nanosecond()`: the sub-second nanosecond offset of an
instant, always in `[0, 1e9)` because Go normalizes the nanosecond field.
Lean's Euclidean `%` returns exactly this non-negative residue, also for
instants before the epoch. -/
def nanosecond (t : Int) : Int := t % nsPerSecond

/-- Go `time.Time.Sub`: the difference of two instants as a `time.Duration`,
saturating at the int64 bounds on overflow. -/
def timeSub (t u : Int) : Int :=
  if t - u > maxDuration then maxDuration
  else if t - u < minDuration then minDuration
  else t - u

/-- The clamp at the top of `Every` (constantdelay.go line 22-24):
`if duration < time.Second { duration = time.Second }`. -/
def clampToSecond (d : Int) : Int := if d < nsPerSecond then nsPerSecond else d

/-- Go `Every` (constantdelay.go lines 21-29).  After the clamp, the delay is
`duration - duration.Nanoseconds()%time.Second` (the clamped operand is
positive, so Go's truncated `%` is the Euclidean `%`), and the start time is
the sentinel `time.Unix(0, 0)`, i.e. the epoch. -/
def Every (duration : Int) : ConstantDelaySchedule :=
  { Delay := clampToSecond duration - clampToSecond duration % nsPerSecond,
    StartTime := 0 }

/-- Go `EveryWithInitial` (constantdelay.go lines 35-40); `t` is the
`time.Now()` read at construction.  The start time is
`t.Add(initial - time.Duration(t.Nanosecond())%time.Second)`; the inner
`% time.Second` on the already-normalized nanosecond field is kept verbatim. -/
def EveryWithInitial (duration initial t : Int) : ConstantDelaySchedule :=
  { Every duration with
    StartTime := t + (initial - nanosecond t % nsPerSecond) }

/-- Go `int64(duration.Seconds())` as used in `EveryWithRandInitial`:
`Duration.Seconds()` is `float64(d / 1e9) + float64(d % 1e9) / 1e9` (Go
truncated division) and the int64 conversion truncates toward zero, so for
every duration whose second count is exactly representable in float64 (far
beyond anything the claims exercise) the result is the nanosecond count
divided by `1e9`, truncated toward zero. -/
def wholeSeconds (duration : Int) : Int := Int.tdiv duration nsPerSecond

/-- Go `EveryWithRandInitial` (constantdelay.go lines 47-53); `t` is the
`time.Now()` read at construction and `r63` the non-negative `r.Int63()`
draw.  The source computes
`t.Add(cds.Delay - time.Duration(t.Nanosecond())%time.Second - time.Duration(r.Int63()%int64(duration.Seconds()))*time.Second)`.
Note the divisor comes from the UNCLAMPED requested `duration`, not from the
clamped `cds.Delay`; when it is zero the Go program panics with an integer
divide by zero, modelled here as `none`.  For a non-negative dividend Go's
truncated `%` equals the Euclidean `%` for every non-zero divisor, including
the negative divisors produced by negative requested durations. -/
def EveryWithRandInitial (duration t : Int) (r63 : Nat) : Option ConstantDelaySchedule :=
  if wholeSeconds duration = 0 then
    none
  else
    some { Every duration with
      StartTime := t + ((Every duration).Delay - nanosecond t % nsPerSecond
        - ((r63 : Int) % wholeSeconds duration) * nsPerSecond) }

/-- Go `ConstantDelaySchedule.Next` (constantdelay.go lines 57-64).  The guard
is `schedule.StartTime.Sub(t).Seconds() > 0`: `Seconds()` returns a float64
whose sign always equals the sign of the integer nanosecond duration (the
whole-second part and the fractional part never have opposite signs, and
`Sub`'s saturation keeps the sign as well), so the guard is faithfully
`timeSub schedule.StartTime t > 0`.  The else branch is
`t.Add(schedule.Delay - time.Duration(t.Nanosecond())*time.Nanosecond)`, with
`time.Nanosecond = 1`. -/
def Next (schedule : ConstantDelaySchedule) (t : Int) : Int :=
  if timeSub schedule.StartTime t > 0 then
    schedule.StartTime
  else
    t + (schedule.Delay - nanosecond t * 1)

/-- Specification-side helper: an instant truncated to the start of its
second (used to state the claims; the code itself computes this as
`t.Add(-time.Duration(t.Nanosecond()))` folded into the `Next` arithmetic). -/
def truncSecond (t : Int) : Int := t - nanosecond t

theorem timeSub_pos_iff (t u : Int) : timeSub t u > 0 ↔ t - u > 0 := by
  simp only [timeSub, maxDuration, minDuration]
  split_ifs <;> omega

theorem every_delay_spec (d : Int) :
    nsPerSecond ≤ (Every d).Delay ∧ (Every d).Delay % nsPerSecond = 0 := by
  simp only [Every, clampToSecond, nsPerSecond]
  split_ifs <;> constructor <;> omega

theorem next_on_second (s : ConstantDelaySchedule) (now : Int)
    (hd : s.Delay % nsPerSecond = 0) (hs : s.StartTime % nsPerSecond = 0) :
    Next s now % nsPerSecond = 0 := by
  simp only [Next, nanosecond, nsPerSecond] at *
  split_ifs <;> omega

/-- C1 (code bug evidence): the randomized-offset constructor computes its
divisor `int64(duration.Seconds())` from the UNCLAMPED requested duration, so
for the degenerate requested durations 0 and 0.5s the divisor is 0 and the
draw `r.Int63() % 0` is an integer division by zero (a Go runtime panic,
modelled as `none`); for -5s the divisor is -5.  In every such case the
divisor is not at least 1, contrary to the claim, while the clamped interval
`Delay` is at least one second as the documentation promises. -/
theorem c1_rand_divisor_not_clamped :
    wholeSeconds 0 = 0 ∧
    wholeSeconds 500000000 = 0 ∧
    wholeSeconds (-5000000000) = -5 ∧
    EveryWithRandInitial 0 0 0 = none ∧
    EveryWithRandInitial 500000000 123456789 7 = none ∧
    (Every 0).Delay = nsPerSecond := by decide

/-- C2 (counterexample): a schedule built by `EveryWithInitial` with duration
5s and initial offset 0.5s at construction instant 0 has `StartTime` 0.5s
after the epoch; queried at `now = 0`, so that the start time is a positive
sub-second amount in the future, `Next` returns `StartTime` itself — the
sub-second difference IS treated as future — and not `now` truncated plus the
interval (5s) as the claim states. -/
theorem c2_counterexample :
    Next (EveryWithInitial 5000000000 500000000 0) 0 =
      (EveryWithInitial 5000000000 500000000 0).StartTime ∧
    Next (EveryWithInitial 5000000000 500000000 0) 0 ≠
      truncSecond 0 + (EveryWithInitial 5000000000 500000000 0).Delay := by decide

/-- C2 (amended): for every schedule and query time `now` such that
`StartTime` is later than `now` by a positive amount strictly less than one
second, `Next` DOES treat the start time as future — the guard compares the
exact (float-signed) difference, not whole seconds — and returns `StartTime`
unchanged. -/
theorem c2_amended_subsecond_is_future (s : ConstantDelaySchedule) (now : Int)
    (h1 : 0 < s.StartTime - now) (_h2 : s.StartTime - now < nsPerSecond) :
    Next s now = s.StartTime := by
  have hpos : timeSub s.StartTime now > 0 := (timeSub_pos_iff _ _).mpr (by omega)
  simp only [Next, if_pos hpos]

/-- C2 (witness): the amended theorem applied to the schedule built by
`EveryWithInitial` with duration 5s, initial offset 0.4s, construction
instant 0, queried at `now = 0`. -/
theorem c2_witness :
    0 < (EveryWithInitial 5000000000 400000000 0).StartTime - 0 ∧
    (EveryWithInitial 5000000000 400000000 0).StartTime - 0 < nsPerSecond ∧
    Next (EveryWithInitial 5000000000 400000000 0) 0 =
      (EveryWithInitial 5000000000 400000000 0).StartTime :=
  ⟨by decide, by decide,
   c2_amended_subsecond_is_future (EveryWithInitial 5000000000 400000000 0) 0
     (by decide) (by decide)⟩

/-- C3 (counterexample): with construction instant `t0 = 0` exactly on a
second boundary and random draw 0, `EveryWithRandInitial` with a 60s interval
produces `StartTime = t0 + 60s`, which does not lie in the half-open window
`[t0, t0 + 60s)` claimed. -/
theorem c3_counterexample :
    EveryWithRandInitial 60000000000 0 0 =
      some { Delay := 60000000000, StartTime := 60000000000 } ∧
    ¬ ((60000000000 : Int) < 0 + 60000000000) := by decide

/-- C3 (amended): for every construction instant `t0` and every random draw,
the `StartTime` produced by `EveryWithRandInitial` with interval 60s lies in
the CLOSED window `[t0, t0 + 60s]`; the upper endpoint is attained exactly
when `t0` is on a second boundary and the draw residue is 0. -/
theorem c3_amended_window (t0 : Int) (r63 : Nat) (s : ConstantDelaySchedule)
    (h : EveryWithRandInitial 60000000000 t0 r63 = some s) :
    t0 ≤ s.StartTime ∧ s.StartTime ≤ t0 + 60000000000 := by
  have hws : wholeSeconds 60000000000 = 60 := by decide
  have hD : (Every 60000000000).Delay = 60000000000 := by decide
  simp only [EveryWithRandInitial, hws, hD] at h
  norm_num at h
  have hr0 : 0 ≤ (r63 : Int) % 60 := Int.emod_nonneg _ (by norm_num)
  have hr1 : (r63 : Int) % 60 < 60 := Int.emod_lt_of_pos _ (by norm_num)
  have hn0 : 0 ≤ nanosecond t0 := Int.emod_nonneg _ (by simp [nsPerSecond])
  have hn1 : nanosecond t0 < nsPerSecond := Int.emod_lt_of_pos _ (by simp [nsPerSecond])
  simp only [nsPerSecond] at hn0 hn1
  subst h
  simp only [nsPerSecond]
  constructor <;> omega

/-- C3 (witness): the amended theorem applied at construction instant
1.23456789s with draw 61 (residue 1), which yields start time exactly 60s
after the epoch. -/
theorem c3_witness :
    1234567890 ≤ (ConstantDelaySchedule.mk 60000000000 60000000000).StartTime ∧
    (ConstantDelaySchedule.mk 60000000000 60000000000).StartTime ≤
      1234567890 + 60000000000 :=
  c3_amended_window 1234567890 61 (ConstantDelaySchedule.mk 60000000000 60000000000)
    (by decide)

/-- C4 (counterexample): for the schedule built by `EveryWithInitial` with
duration 7s and sub-second initial offset 0.3s at construction instant 0, the
query `Next` at `now = 0` returns the pending `StartTime` 0.3s verbatim,
which is not on a whole-second boundary. -/
theorem c4_counterexample :
    ¬ (Next (EveryWithInitial 7000000000 300000000 0) 0 % nsPerSecond = 0) := by
  decide

/-- C4 (amended): every activation time returned by `Next` lands on a
whole-second boundary for schedules built by `Every` and by
`EveryWithRandInitial`, and for schedules built by `EveryWithInitial`
whenever the initial offset is a whole number of seconds; a sub-second
initial offset puts the pending `StartTime` off the boundary and `Next`
returns it verbatim. -/
theorem c4_amended_on_the_second (d init t0 now : Int) (r63 : Nat) :
    Next (Every d) now % nsPerSecond = 0 ∧
    (init % nsPerSecond = 0 →
      Next (EveryWithInitial d init t0) now % nsPerSecond = 0) ∧
    (∀ s, EveryWithRandInitial d t0 r63 = some s →
      Next s now % nsPerSecond = 0) := by
  have hD := (every_delay_spec d).2
  refine ⟨?_, ?_, ?_⟩
  · exact next_on_second (Every d) now hD (by show (0 : Int) % nsPerSecond = 0; decide)
  · intro hinit
    refine next_on_second (EveryWithInitial d init t0) now hD ?_
    show (t0 + (init - nanosecond t0 % nsPerSecond)) % nsPerSecond = 0
    simp only [nanosecond, nsPerSecond] at *
    omega
  · intro s h
    simp only [EveryWithRandInitial] at h
    split at h
    · exact Option.noConfusion h
    · rw [Option.some.injEq] at h
      subst h
      refine next_on_second _ now hD ?_
      show (t0 + ((Every d).Delay - nanosecond t0 % nsPerSecond
        - ((r63 : Int) % wholeSeconds d) * nsPerSecond)) % nsPerSecond = 0
      generalize (r63 : Int) % wholeSeconds d = m
      simp only [nanosecond, nsPerSecond] at *
      omega

/-- C4 (witness): the amended theorem applied with duration 5s, whole-second
initial offset 2s, construction instant 777ns, draw 3 (whose schedule is
`{Delay := 5s, StartTime := 2s}`), and query time 123456789ns. -/
theorem c4_witness :
    Next (Every 5000000000) 123456789 % nsPerSecond = 0 ∧
    Next (EveryWithInitial 5000000000 2000000000 777) 123456789 % nsPerSecond = 0 ∧
    Next (ConstantDelaySchedule.mk 5000000000 2000000000) 123456789 % nsPerSecond = 0 :=
  ⟨(c4_amended_on_the_second 5000000000 2000000000 777 123456789 3).1,
   (c4_amended_on_the_second 5000000000 2000000000 777 123456789 3).2.1 (by decide),
   (c4_amended_on_the_second 5000000000 2000000000 777 123456789 3).2.2
     (ConstantDelaySchedule.mk 5000000000 2000000000) (by decide)⟩

/-- C5 (counterexample): for the schedule built by `EveryWithInitial` with
duration 9s and initial offset 0.4s at construction instant 0, the query time
`now = 0` equals `StartTime` (0.4s) to the second — both truncate to 0 — yet
the future check is TRUE (the comparison sees the exact positive sub-second
difference) and `Next` returns `StartTime` instead of falling through to the
regular now-truncated-plus-interval rule. -/
theorem c5_counterexample :
    truncSecond (EveryWithInitial 9000000000 400000000 0).StartTime =
      truncSecond 0 ∧
    Next (EveryWithInitial 9000000000 400000000 0) 0 ≠
      truncSecond 0 + (EveryWithInitial 9000000000 400000000 0).Delay := by
  decide

/-- C5 (amended): if `now` equals `StartTime` exactly (not merely to the same
second), the future check is false and `Next` falls through to the regular
rule, returning `now` truncated plus the interval; in particular, for an
explicit-offset schedule built with offset 0 at construction instant `t0`,
the first call `Next` at `t0` returns `t0`'s second-truncation plus the full
interval, and does not return `StartTime` verbatim. -/
theorem c5_amended_exact_equality (s : ConstantDelaySchedule) (d t0 now : Int)
    (h : s.StartTime = now) :
    Next s now = truncSecond now + s.Delay ∧
    Next (EveryWithInitial d 0 t0) t0 =
      truncSecond t0 + (EveryWithInitial d 0 t0).Delay ∧
    Next (EveryWithInitial d 0 t0) t0 ≠ (EveryWithInitial d 0 t0).StartTime := by
  have hD := (every_delay_spec d).1
  simp only [nsPerSecond] at hD
  refine ⟨?_, ?_, ?_⟩
  · subst h
    simp only [Next, truncSecond, timeSub, nanosecond, maxDuration, minDuration,
      nsPerSecond]
    split_ifs <;> omega
  · simp only [EveryWithInitial, Next, truncSecond, timeSub, nanosecond,
      nsPerSecond, maxDuration, minDuration]
    split_ifs <;> omega
  · simp only [EveryWithInitial, Next, truncSecond, timeSub, nanosecond,
      nsPerSecond, maxDuration, minDuration]
    split_ifs <;> omega

/-- C5 (witness): the amended theorem applied to the schedule
`{Delay := 5s, StartTime := 1000ns}` queried exactly at `now = 1000ns`, with
the offset-0 part instantiated at duration 9s and construction instant
0.123456789s past a second boundary. -/
theorem c5_witness :
    Next (ConstantDelaySchedule.mk 5000000000 1000) 1000 =
      truncSecond 1000 + (ConstantDelaySchedule.mk 5000000000 1000).Delay ∧
    Next (EveryWithInitial 9000000000 0 123456789) 123456789 =
      truncSecond 123456789 + (EveryWithInitial 9000000000 0 123456789).Delay ∧
    Next (EveryWithInitial 9000000000 0 123456789) 123456789 ≠
      (EveryWithInitial 9000000000 0 123456789).StartTime :=
  c5_amended_exact_equality (ConstantDelaySchedule.mk 5000000000 1000)
    9000000000 123456789 1000 (by decide)

/-- C6 (counterexample): for the plain schedule `Every 5s` queried one second
before the Unix epoch, `Next` returns the epoch sentinel 0, not the query
time truncated plus the interval (which would be 4s after the epoch) as the
claim states for every query time. -/
theorem c6_counterexample :
    Next (Every 5000000000) (-1000000000) = 0 ∧
    (0 : Int) ≠ truncSecond (-1000000000) + (Every 5000000000).Delay := by
  decide

/-- C6 (amended): for a plain schedule built by `Every` and every query time
`now` at or after the Unix epoch, `Next` returns `now` truncated to the
second plus the interval; for query times strictly before the epoch the
sentinel start time counts as future and the epoch itself is returned. -/
theorem c6_amended_epoch_onward (d now : Int) (h : 0 ≤ now) :
    Next (Every d) now = truncSecond now + (Every d).Delay := by
  simp only [Next, Every, clampToSecond, truncSecond, timeSub, nanosecond,
    maxDuration, minDuration, nsPerSecond] at *
  split_ifs <;> omega

/-- C6 (witness): the amended theorem at interval 5s and
`now = 12:00:03.420` (43203.42s past the epoch), evaluating to
`12:00:08.000` (43208s past the epoch). -/
theorem c6_witness :
    Next (Every 5000000000) 43203420000000 =
      truncSecond 43203420000000 + (Every 5000000000).Delay ∧
    truncSecond 43203420000000 + (Every 5000000000).Delay = 43208000000000 :=
  ⟨c6_amended_epoch_onward 5000000000 43203420000000 (by decide), by decide⟩

/-- C7 (confirmed): for every schedule whose `StartTime` lies at least one
full second after the query time, `Next` returns `StartTime` exactly
unchanged, and any two such pre-start queries return that same single value
(idempotence while pending). -/
theorem c7_pending_idempotent (s : ConstantDelaySchedule) (n1 n2 : Int)
    (h1 : n1 + nsPerSecond ≤ s.StartTime) (h2 : n2 + nsPerSecond ≤ s.StartTime) :
    Next s n1 = s.StartTime ∧ Next s n2 = s.StartTime ∧ Next s n1 = Next s n2 := by
  simp only [nsPerSecond] at h1 h2
  have e1 : Next s n1 = s.StartTime := by
    have hpos : timeSub s.StartTime n1 > 0 := (timeSub_pos_iff _ _).mpr (by omega)
    simp only [Next, if_pos hpos]
  have e2 : Next s n2 = s.StartTime := by
    have hpos : timeSub s.StartTime n2 > 0 := (timeSub_pos_iff _ _).mpr (by omega)
    simp only [Next, if_pos hpos]
  exact ⟨e1, e2, e1.trans e2.symm⟩

/-- C7 (witness): the theorem applied to the schedule built by
`EveryWithInitial` with duration 5s and offset 10s at construction instant
100ns (so `StartTime` is 10s after the epoch), queried at `t0 + 1s` and at
`t0 + 3s`. -/
theorem c7_witness :
    Next (EveryWithInitial 5000000000 10000000000 100) 1000000100 =
      (EveryWithInitial 5000000000 10000000000 100).StartTime ∧
    Next (EveryWithInitial 5000000000 10000000000 100) 3000000100 =
      (EveryWithInitial 5000000000 10000000000 100).StartTime ∧
    Next (EveryWithInitial 5000000000 10000000000 100) 1000000100 =
      Next (EveryWithInitial 5000000000 10000000000 100) 3000000100 :=
  c7_pending_idempotent (EveryWithInitial 5000000000 10000000000 100)
    1000000100 3000000100 (by decide) (by decide)

/-- C8 (confirmed): for every requested duration strictly less than one
second, including zero and negative durations, the interval of the schedule
constructed by `Every` equals exactly one second. -/
theorem c8_subsecond_clamp (d : Int) (h : d < nsPerSecond) :
    (Every d).Delay = nsPerSecond := by
  simp only [Every, clampToSecond, if_pos h]
  decide

/-- C8 (witness): the theorem applied at the requested durations 0 and
-0.5s. -/
theorem c8_witness :
    (Every 0).Delay = nsPerSecond ∧ (Every (-500000000)).Delay = nsPerSecond :=
  ⟨c8_subsecond_clamp 0 (by decide), c8_subsecond_clamp (-500000000) (by decide)⟩

/-- C9 (confirmed): every schedule obtained from any of the three
constructors has an interval of at least one second that is an exact whole
number of seconds, and for durations of at least one second the interval is
the requested duration with its sub-second component discarded by truncation
(never rounded up); `EveryWithInitial` and `EveryWithRandInitial` reuse the
interval computed by `Every` unchanged (the latter stated for every schedule
the constructor actually returns, since degenerate durations make it panic —
see the C1 theorem). -/
theorem c9_delay_invariant (d init t0 : Int) (r63 : Nat) :
    nsPerSecond ≤ (Every d).Delay ∧
    (Every d).Delay % nsPerSecond = 0 ∧
    (EveryWithInitial d init t0).Delay = (Every d).Delay ∧
    (∀ s, EveryWithRandInitial d t0 r63 = some s → s.Delay = (Every d).Delay) ∧
    (nsPerSecond ≤ d → (Every d).Delay = d - d % nsPerSecond) := by
  refine ⟨(every_delay_spec d).1, (every_delay_spec d).2, rfl, ?_, ?_⟩
  · intro s h
    simp only [EveryWithRandInitial] at h
    split at h
    · exact Option.noConfusion h
    · rw [Option.some.injEq] at h
      subst h
      rfl
  · intro h
    simp only [Every, clampToSecond, nsPerSecond] at *
    split_ifs <;> omega

/-- C9 (witness): the theorem instantiated at the requested duration 5.7s
(with offset 0, construction instant 0, draw 0), showing the interval is the
truncation 5s, shared by all three constructors. -/
theorem c9_witness :
    nsPerSecond ≤ (Every 5700000000).Delay ∧
    (EveryWithInitial 5700000000 0 0).Delay = (Every 5700000000).Delay ∧
    (ConstantDelaySchedule.mk 5000000000 5000000000).Delay = (Every 5700000000).Delay ∧
    (Every 5700000000).Delay = 5700000000 - 5700000000 % nsPerSecond :=
  ⟨(c9_delay_invariant 5700000000 0 0 0).1,
   (c9_delay_invariant 5700000000 0 0 0).2.2.1,
   (c9_delay_invariant 5700000000 0 0 0).2.2.2.1
     (ConstantDelaySchedule.mk 5000000000 5000000000) (by decide),
   (c9_delay_invariant 5700000000 0 0 0).2.2.2.2 (by decide)⟩

/-- C10 (confirmed): for a plain schedule built by `Every` and every query
time strictly before the Unix epoch, `Next` returns the epoch sentinel
`time.Unix(0, 0)` itself — the sentinel start time counts as future relative
to such a query time — rather than the query time truncated plus the
interval. -/
theorem c10_pre_epoch_sentinel (d now : Int) (h : now < 0) :
    Next (Every d) now = 0 := by
  have hs : (Every d).StartTime = 0 := rfl
  have hpos : timeSub (0 : Int) now > 0 :=
    (timeSub_pos_iff _ _).mpr (by omega)
  simp only [Next, hs, if_pos hpos]

/-- C10 (witness): the theorem applied to `Every 1s` queried one nanosecond
before the epoch. -/
theorem c10_witness : Next (Every 1000000000) (-1) = 0 :=
  c10_pre_epoch_sentinel 1000000000 (-1) (by decide)

end Cron
